import Mathlib

/-!
Verification of the Schedule Interpreter of docker-crontab
(src/webapp/cron_parser.py) against its natural-language specification.

The Python class CronParser is shallowly embedded below.  Python strings
are Lean strings; field-level helpers (strip, split, startswith, isdigit,
zfill, int) are modelled on the character list underlying the string,
restricted to the ASCII subset (unicode digits and non-ASCII whitespace
such as NEL and NBSP are outside the model).  Whitespace for str.strip,
str.split and the regex class backslash-s is the full ASCII whitespace set
of CPython: space, tab, newline, vertical tab, form feed, carriage return
and the four separator controls x1c-x1f.  int() accepts an optional sign
and underscore-grouped decimal digits (PEP 515); the fields handed to
int() come from split() and therefore contain no whitespace, so the
surrounding-whitespace tolerance of int() is irrelevant here.  A call to
int() or datetime.replace() that raises ValueError in Python is modelled
as Except.error PyErr.valueError, and a timedelta construction whose
normalized day count leaves the plus-or-minus 999999999 range raises
OverflowError, modelled as Except.error PyErr.overflowError; every other
code path returns Except.ok.

Naive Python datetimes form a linear time scale with fixed 86400-second
days, so a datetime is modelled as an integer count of microseconds; the
datetime.replace calls used by the source become floor-alignment plus the
bound checks that make Python raise ValueError for out-of-range fields,
and adding a successfully constructed timedelta becomes integer addition.
-/

inductive PyErr
  | valueError
  | overflowError
deriving DecidableEq

deriving instance DecidableEq for Except

/-- Python str.startswith: the first list is the candidate leading segment. -/
def listIsPre : List Char → List Char → Bool
  | [], _ => true
  | _ :: _, [] => false
  | c :: cs, d :: ds => c = d && listIsPre cs ds

def pyStartsWith (s pre : String) : Bool :=
  listIsPre pre.data s.data

/-- The ASCII whitespace characters of CPython, shared by str.strip with no
arguments, str.split with no arguments, and the regex class backslash-s:
space, tab, newline, vertical tab, form feed, carriage return, and the
file, group, record and unit separator controls. -/
def pyIsSpace (c : Char) : Bool :=
  c = ' ' || c = '\t' || c = '\n' || c = '\x0b' || c = '\x0c' || c = '\r'
    || c = '\x1c' || c = '\x1d' || c = '\x1e' || c = '\x1f'

/-- Python str.strip (ASCII whitespace). -/
def pyStrip (s : String) : String :=
  String.mk (((s.data.dropWhile pyIsSpace).reverse.dropWhile pyIsSpace).reverse)

/-- Python str.split() with no arguments: split on whitespace runs, dropping empties. -/
def pySplitAux : List Char → List Char → List String
  | [], acc => if acc = [] then [] else [String.mk acc.reverse]
  | c :: rest, acc =>
    if pyIsSpace c then
      (if acc = [] then pySplitAux rest [] else String.mk acc.reverse :: pySplitAux rest [])
    else pySplitAux rest (c :: acc)

def pySplit (s : String) : List String :=
  pySplitAux s.data []

/-- Python str.isdigit, restricted to ASCII decimal digits. -/
def pyIsdigit (s : String) : Bool :=
  !s.data.isEmpty && s.data.all Char.isDigit

/-- Python slicing s[n:] by characters. -/
def pyDrop (s : String) (n : Nat) : String :=
  String.mk (s.data.drop n)

/-- Decimal value of a digit list, most significant digit first. -/
def digitsToNat (l : List Char) : Nat :=
  l.foldl (fun a c => 10 * a + (c.toNat - 48)) 0

/-- Continuation of the PEP 515 digit grammar digit (underscore? digit)*
after its first digit: every underscore must sit between two digits, so no
trailing, leading (handled by the caller) or doubled underscores. -/
def underscoreTail : List Char → Bool
  | [] => true
  | c :: rest =>
    if c = '_' then
      match rest with
      | [] => false
      | d :: rest2 => d.isDigit && underscoreTail rest2
    else c.isDigit && underscoreTail rest

/-- A nonempty decimal digit run with optional single underscores between
digits, the digit-part grammar accepted by Python int(). -/
def isUnderscoreGrouped : List Char → Bool
  | [] => false
  | c :: rest => c.isDigit && underscoreTail rest

/-- Python int(s) on the whitespace-free field strings the parser feeds it:
an optional sign followed by underscore-grouped decimal digits (PEP 515,
so int parses the string with the underscores removed); anything else
raises ValueError (modelled as none). -/
def pyIntChars : List Char → Option Int
  | [] => none
  | c :: rest =>
    if c = '-' then
      (if isUnderscoreGrouped rest
       then some (-(digitsToNat (rest.filter (fun x => x ≠ '_')) : Int)) else none)
    else if c = '+' then
      (if isUnderscoreGrouped rest
       then some ((digitsToNat (rest.filter (fun x => x ≠ '_')) : Int)) else none)
    else if isUnderscoreGrouped (c :: rest)
    then some ((digitsToNat ((c :: rest).filter (fun x => x ≠ '_')) : Int)) else none

def pyInt? (s : String) : Option Int :=
  pyIntChars s.data

/-- Python str.zfill(width): left-pad with zeros to the given width, keeping
a leading sign in front of the padding. -/
def zfill (width : Nat) (s : String) : String :=
  if width ≤ s.data.length then s
  else
    match s.data with
    | c :: rest =>
      if c = '+' ∨ c = '-' then String.mk (c :: (List.replicate (width - s.data.length) '0' ++ rest))
      else String.mk (List.replicate (width - s.data.length) '0' ++ s.data)
    | [] => String.mk (List.replicate width '0')

/-- The unit letter captured by the character class of the @every pattern. -/
inductive EveryUnit
  | m
  | h
  | d
deriving DecidableEq

/-- Digit-group-then-unit part of the @every pattern: a nonempty maximal
digit run immediately followed by a unit letter from the character class
(greedy matching with no productive backtracking, as in the Python regex). -/
def matchDigitsUnit (rest : List Char) : Option (Nat × EveryUnit) :=
  if rest.takeWhile Char.isDigit = [] then none
  else
    match rest.dropWhile Char.isDigit with
    | 'm' :: _ => some (digitsToNat (rest.takeWhile Char.isDigit), EveryUnit.m)
    | 'h' :: _ => some (digitsToNat (rest.takeWhile Char.isDigit), EveryUnit.h)
    | 'd' :: _ => some (digitsToNat (rest.takeWhile Char.isDigit), EveryUnit.d)
    | _ => none

/-- Attempt to complete the @every pattern right after the literal: one or
more whitespace characters, then digits and a unit letter. -/
def matchEveryCore (l : List Char) : Option (Nat × EveryUnit) :=
  if l.takeWhile pyIsSpace = [] then none
  else matchDigitsUnit (l.dropWhile pyIsSpace)

/-- Leftmost match of the Python pattern used by the source at lines 61 and
132 of cron_parser.py: the literal at-every, whitespace, a digit group, and
a unit letter, searched from every start position. -/
def reSearchEvery : List Char → Option (Nat × EveryUnit)
  | [] => none
  | c :: rest =>
    match (if listIsPre "@every".data (c :: rest) then matchEveryCore ((c :: rest).drop 6) else none) with
    | some r => some r
    | none => reSearchEvery rest

/-- CronParser.SHORTCUTS. -/
def SHORTCUTS : List (String × String) :=
  [("@yearly", "0 0 1 1 *"),
   ("@annually", "0 0 1 1 *"),
   ("@monthly", "0 0 1 * *"),
   ("@weekly", "0 0 * * 0"),
   ("@daily", "0 0 * * *"),
   ("@midnight", "0 0 * * *"),
   ("@hourly", "0 * * * *")]

/-- Dictionary membership and lookup in SHORTCUTS. -/
def shortcutLookup (s : String) : Option String :=
  (SHORTCUTS.find? (fun p => p.fst == s)).map (fun p => p.snd)

/-- The pluralization expression the source repeats in its f-strings. -/
def pluralZ (n : Int) : String :=
  if n ≠ 1 then "s" else ""

def unitWord : EveryUnit → String
  | EveryUnit.m => "minute"
  | EveryUnit.h => "hour"
  | EveryUnit.d => "day"

/-- CronParser._parse_every. -/
def parse_every (schedule_str : String) : String :=
  match reSearchEvery schedule_str.data with
  | some (value, unit) => "Every " ++ toString value ++ " " ++ unitWord unit ++ pluralZ (value : Int)
  | none => "Invalid @every syntax"

/-- CronParser._describe_standard_cron.  The int() calls inside the step
branches raise ValueError when the step suffix is not an integer literal;
these surface as Except.error. -/
def describe_standard_cron (schedule_str : String) : Except PyErr String :=
  match pySplit schedule_str with
  | [minute, hour, day, month, weekday] =>
    if minute = "*" ∧ hour = "*" then Except.ok "Every minute"
    else if pyStartsWith minute "*/" then
      match pyInt? (pyDrop minute 2) with
      | some n => Except.ok ("Every " ++ pyDrop minute 2 ++ " minute" ++ pluralZ n)
      | none => Except.error PyErr.valueError
    else if pyStartsWith hour "*/" ∧ minute = "0" then
      match pyInt? (pyDrop hour 2) with
      | some n => Except.ok ("Every " ++ pyDrop hour 2 ++ " hour" ++ pluralZ n)
      | none => Except.error PyErr.valueError
    else if pyStartsWith day "*/" ∧ minute = "0" ∧ hour = "0" then
      match pyInt? (pyDrop day 2) with
      | some n => Except.ok ("Every " ++ pyDrop day 2 ++ " day" ++ pluralZ n)
      | none => Except.error PyErr.valueError
    else if minute ≠ "*" ∧ hour ≠ "*" ∧ day = "*" ∧ month = "*" ∧ weekday = "*" then
      Except.ok ("Daily at " ++ zfill 2 hour ++ ":" ++ zfill 2 minute)
    else if minute ≠ "*" ∧ hour ≠ "*" ∧ day ≠ "*" ∧ month = "*" ∧ weekday = "*" then
      Except.ok ("Monthly on day " ++ day ++ " at " ++ zfill 2 hour ++ ":" ++ zfill 2 minute)
    else Except.ok ("Cron: " ++ schedule_str)
  | _ => Except.ok ("Invalid cron syntax: " ++ schedule_str)

/-- CronParser.parse_schedule, the describe operation of the spec. -/
def parse_schedule (schedule_str : String) : Except PyErr String :=
  let t := pyStrip schedule_str
  match shortcutLookup t with
  | some canonical => describe_standard_cron canonical
  | none =>
    if pyStartsWith t "@every" then Except.ok (parse_every t)
    else if pyStartsWith t "@random" then Except.ok "Random (varies per container start)"
    else describe_standard_cron t

/-- A naive Python datetime as microseconds on a linear time scale. -/
abbrev DateTime := Int

def usPerMin : Int := 60000000

def usPerHour : Int := 3600000000

def usPerDay : Int := 86400000000

/-- Python timedelta construction from a duration in microseconds: the
normalization splits the duration into days, seconds and microseconds with
nonnegative remainders (floor day count) and raises OverflowError unless
the day count lies within plus or minus 999999999; a successfully built
timedelta carries the exact duration. -/
def timedelta (us : Int) : Except PyErr Int :=
  if -999999999 ≤ us.ediv usPerDay ∧ us.ediv usPerDay ≤ 999999999 then Except.ok us
  else Except.error PyErr.overflowError

/-- Midnight of the calendar day containing t. -/
def dayStart (t : DateTime) : DateTime :=
  (t.ediv usPerDay) * usPerDay

/-- Start of the hour containing t. -/
def hourStart (t : DateTime) : DateTime :=
  (t.ediv usPerHour) * usPerHour

/-- Start of the minute containing t, i.e. replace(second=0, microsecond=0). -/
def minuteStart (t : DateTime) : DateTime :=
  (t.ediv usPerMin) * usPerMin

/-- t.replace(hour=h, minute=m, second=0, microsecond=0): ValueError unless
0 <= h <= 23 and 0 <= m <= 59. -/
def pyReplaceHM (t : DateTime) (h m : Int) : Except PyErr DateTime :=
  if 0 ≤ h ∧ h ≤ 23 ∧ 0 ≤ m ∧ m ≤ 59 then Except.ok (dayStart t + h * usPerHour + m * usPerMin)
  else Except.error PyErr.valueError

/-- t.replace(minute=m, second=0, microsecond=0): ValueError unless 0 <= m <= 59. -/
def pyReplaceMin (t : DateTime) (m : Int) : Except PyErr DateTime :=
  if 0 ≤ m ∧ m ≤ 59 then Except.ok (hourStart t + m * usPerMin)
  else Except.error PyErr.valueError

def unitUs : EveryUnit → Int
  | EveryUnit.m => usPerMin
  | EveryUnit.h => usPerHour
  | EveryUnit.d => usPerDay

def unitChar : EveryUnit → Char
  | EveryUnit.m => 'm'
  | EveryUnit.h => 'h'
  | EveryUnit.d => 'd'

/-- Standard-cron phase of CronParser.calculate_next_run (lines 146-173 of
cron_parser.py), applied after @every handling and shortcut substitution.
The constant timedelta(days=1) of the specific-time branch and the
timedelta(hours=1) of the generic fallback are far inside the timedelta
bounds and never raise, so they stay plain additions. -/
def calc_standard (s : String) (from_time : DateTime) : Except PyErr DateTime :=
  match pySplit s with
  | [minute, hour, _day, _month, _weekday] =>
      if pyStartsWith minute "*/" then
        match pyInt? (pyDrop minute 2) with
        | some interval =>
          match timedelta (interval * usPerMin) with
          | Except.ok d => Except.ok (minuteStart (from_time + d))
          | Except.error e => Except.error e
        | none => Except.error PyErr.valueError
      else if pyStartsWith hour "*/" ∧ pyIsdigit minute then
        match pyInt? (pyDrop hour 2), pyInt? minute with
        | some interval, some mv =>
          match timedelta (interval * usPerHour) with
          | Except.ok d => pyReplaceMin (from_time + d) mv
          | Except.error e => Except.error e
        | _, _ => Except.error PyErr.valueError
      else if pyIsdigit minute ∧ pyIsdigit hour then
        match pyInt? minute, pyInt? hour with
        | some mv, some hv =>
          match pyReplaceHM from_time hv mv with
          | Except.ok candidate =>
            Except.ok (if candidate ≤ from_time then candidate + usPerDay else candidate)
          | Except.error e => Except.error e
        | _, _ => Except.error PyErr.valueError
      else Except.ok (from_time + usPerHour)
  | _ => Except.ok (from_time + usPerHour)

/-- CronParser.calculate_next_run, the nextRun operation of the spec.  Note
that unlike parse_schedule it never strips the input; the regex search only
runs when the raw string starts with the at-every literal, and a failed
search falls through to the shortcut and standard handling. -/
def calculate_next_run (schedule_str : String) (from_time : DateTime) : Except PyErr DateTime :=
  match (if pyStartsWith schedule_str "@every" then reSearchEvery schedule_str.data else none) with
  | some (value, unit) =>
    match timedelta ((value : Int) * unitUs unit) with
    | Except.ok d => Except.ok (from_time + d)
    | Except.error e => Except.error e
  | none => calc_standard ((shortcutLookup schedule_str).getD schedule_str) from_time


/-! Helper lemmas about the string model. -/

lemma ne_of_digit {c d : Char} (hc : c.isDigit = true) (hd : d.isDigit = false) : c ≠ d := by
  intro h
  subst h
  rw [hc] at hd
  cases hd

lemma not_space_of_digit {c : Char} (hc : c.isDigit = true) : pyIsSpace c = false := by
  cases hw : pyIsSpace c
  · rfl
  · exfalso
    unfold pyIsSpace at hw
    simp only [Bool.or_eq_true, decide_eq_true_eq] at hw
    rcases hw with (((((((((h | h) | h) | h) | h) | h) | h) | h) | h) | h) <;> subst h <;>
      exact absurd hc (by decide)

lemma data_append (s t : String) : (s ++ t).data = s.data ++ t.data := rfl

lemma takeWhile_digits {l : List Char} (hl : l.all Char.isDigit = true) {r : List Char}
    (hr : ∀ c, r.head? = some c → c.isDigit = false) :
    (l ++ r).takeWhile Char.isDigit = l ∧ (l ++ r).dropWhile Char.isDigit = r := by
  induction l with
  | nil =>
    cases r with
    | nil => exact ⟨rfl, rfl⟩
    | cons c cs =>
      constructor
      · simp [List.takeWhile_cons, hr c rfl]
      · simp [List.dropWhile_cons, hr c rfl]
  | cons c cs ih =>
    simp only [List.all_cons, Bool.and_eq_true] at hl
    have h2 := ih hl.2
    constructor
    · simp [List.takeWhile_cons, hl.1, h2.1]
    · simp [List.dropWhile_cons, hl.1, h2.2]

lemma pyIsdigit_data {s : String} (h : pyIsdigit s = true) :
    s.data ≠ [] ∧ s.data.all Char.isDigit = true := by
  unfold pyIsdigit at h
  simp only [Bool.and_eq_true, Bool.not_eq_true'] at h
  refine ⟨?_, h.2⟩
  intro hd
  rw [hd] at h
  exact absurd h.1 (by decide)

lemma underscoreTail_of_digits {l : List Char} (h : l.all Char.isDigit = true) :
    underscoreTail l = true := by
  induction l with
  | nil => rfl
  | cons c cs ih =>
    simp only [List.all_cons, Bool.and_eq_true] at h
    have hcne : c ≠ '_' := ne_of_digit h.1 (by decide)
    unfold underscoreTail
    rw [if_neg hcne, h.1, ih h.2]
    rfl

lemma isUnderscoreGrouped_of_digits {l : List Char} (hne : l ≠ [])
    (h : l.all Char.isDigit = true) : isUnderscoreGrouped l = true := by
  cases l with
  | nil => exact absurd rfl hne
  | cons c cs =>
    simp only [List.all_cons, Bool.and_eq_true] at h
    show (c.isDigit && underscoreTail cs) = true
    rw [h.1, underscoreTail_of_digits h.2]
    rfl

lemma filter_underscore_of_digits {l : List Char} (h : l.all Char.isDigit = true) :
    l.filter (fun x => !decide (x = '_')) = l := by
  induction l with
  | nil => rfl
  | cons c cs ih =>
    simp only [List.all_cons, Bool.and_eq_true] at h
    have hcne : c ≠ '_' := ne_of_digit h.1 (by decide)
    rw [List.filter_cons, if_pos (by simp [hcne]), ih h.2]

lemma pyIntChars_digits {l : List Char} (hne : l ≠ []) (hall : l.all Char.isDigit = true) :
    pyIntChars l = some ((digitsToNat l : Int)) := by
  cases l with
  | nil => exact absurd rfl hne
  | cons c cs =>
    have hc : c.isDigit = true := by
      simp only [List.all_cons, Bool.and_eq_true] at hall
      exact hall.1
    have hcd : c ≠ '-' := ne_of_digit hc (by decide)
    have hcp : c ≠ '+' := ne_of_digit hc (by decide)
    simp [pyIntChars, hcd, hcp, isUnderscoreGrouped_of_digits (List.cons_ne_nil c cs) hall,
      filter_underscore_of_digits hall]

lemma pyInt_of_isdigit {s : String} (h : pyIsdigit s = true) :
    pyInt? s = some ((digitsToNat s.data : Int)) := by
  obtain ⟨hne, hall⟩ := pyIsdigit_data h
  exact pyIntChars_digits hne hall

lemma startsWith_step_false_of_isdigit {s : String} (h : pyIsdigit s = true) :
    pyStartsWith s "*/" = false := by
  obtain ⟨hne, hall⟩ := pyIsdigit_data h
  unfold pyStartsWith
  cases hd : s.data with
  | nil => exact absurd hd hne
  | cons c cs =>
    rw [hd] at hall
    simp only [List.all_cons, Bool.and_eq_true] at hall
    have hc : c ≠ '*' := ne_of_digit hall.1 (by decide)
    rw [show ("*/" : String).data = ['*', '/'] from rfl]
    simp [listIsPre, Ne.symm hc]

lemma data_of_startsWith_step {s : String} (h : pyStartsWith s "*/" = true) :
    ∃ rest, s.data = '*' :: '/' :: rest := by
  unfold pyStartsWith at h
  rw [show ("*/" : String).data = ['*', '/'] from rfl] at h
  cases hd : s.data with
  | nil => rw [hd] at h; exact absurd h (by decide)
  | cons c cs =>
    rw [hd] at h
    cases cs with
    | nil => simp [listIsPre] at h
    | cons c2 cs2 =>
      simp only [listIsPre, Bool.and_eq_true, decide_eq_true_eq] at h
      exact ⟨cs2, by rw [← h.1, ← h.2.1]⟩

lemma ne_star_of_startsWith_step {s : String} (h : pyStartsWith s "*/" = true) : s ≠ "*" := by
  obtain ⟨rest, hd⟩ := data_of_startsWith_step h
  intro hs
  rw [hs] at hd
  rw [show ("*" : String).data = ['*'] from rfl] at hd
  injection hd with h1 h2
  exact List.noConfusion h2

lemma zfill_of_len {s : String} (h : 2 ≤ s.data.length) : zfill 2 s = s := by
  unfold zfill
  rw [if_pos h]

lemma dayStart_le (t : DateTime) : dayStart t ≤ t :=
  Int.ediv_mul_le t (by norm_num [usPerDay])

lemma matchDigitsUnit_at {ds : List Char} (hne : ds ≠ []) (hdig : ds.all Char.isDigit = true)
    (u : EveryUnit) (tail : List Char) :
    matchDigitsUnit (ds ++ unitChar u :: tail) = some (digitsToNat ds, u) := by
  have hu : (unitChar u).isDigit = false := by cases u <;> decide
  have htd := takeWhile_digits hdig (r := unitChar u :: tail)
    (fun x hx => by injection hx with h; rw [← h]; exact hu)
  unfold matchDigitsUnit
  rw [htd.1, htd.2, if_neg hne]
  cases u <;> rfl

lemma matchEveryCore_at {ds : List Char} (hne : ds ≠ []) (hdig : ds.all Char.isDigit = true)
    (u : EveryUnit) (tail : List Char) :
    matchEveryCore (' ' :: (ds ++ unitChar u :: tail)) = some (digitsToNat ds, u) := by
  obtain ⟨c, cs, rfl⟩ : ∃ c cs, ds = c :: cs := by
    cases ds with
    | nil => exact absurd rfl hne
    | cons c cs => exact ⟨c, cs, rfl⟩
  have hc : c.isDigit = true := by
    simp only [List.all_cons, Bool.and_eq_true] at hdig
    exact hdig.1
  have hcw : pyIsSpace c = false := not_space_of_digit hc
  have e1 : (' ' :: (c :: cs ++ unitChar u :: tail)).takeWhile pyIsSpace = [' '] := by
    rw [List.cons_append, List.takeWhile_cons, List.takeWhile_cons, hcw]
    simp +decide
  have e2 : (' ' :: (c :: cs ++ unitChar u :: tail)).dropWhile pyIsSpace
      = c :: cs ++ unitChar u :: tail := by
    rw [List.cons_append, List.dropWhile_cons, List.dropWhile_cons, hcw]
    simp +decide
  unfold matchEveryCore
  rw [e1, e2, if_neg (by simp)]
  exact matchDigitsUnit_at hne hdig u tail

lemma reSearchEvery_at {ds : List Char} (hne : ds ≠ []) (hdig : ds.all Char.isDigit = true)
    (u : EveryUnit) (tail : List Char) :
    reSearchEvery ('@' :: 'e' :: 'v' :: 'e' :: 'r' :: 'y' :: ' ' :: (ds ++ unitChar u :: tail))
      = some (digitsToNat ds, u) := by
  have hcond : listIsPre ("@every" : String).data
      ('@' :: 'e' :: 'v' :: 'e' :: 'r' :: 'y' :: ' ' :: (ds ++ unitChar u :: tail)) = true := rfl
  unfold reSearchEvery
  rw [if_pos hcond]
  rw [show ('@' :: 'e' :: 'v' :: 'e' :: 'r' :: 'y' :: ' ' :: (ds ++ unitChar u :: tail)).drop 6
      = ' ' :: (ds ++ unitChar u :: tail) from rfl]
  rw [matchEveryCore_at hne hdig u tail]

/-- C5 counterexample: the claim promises the reference plus n minutes for
every natural n, but a count of 1440000000000 minutes exceeds the
timedelta normalization bound, so the code raises OverflowError instead of
returning a timestamp. -/
theorem c5_counterexample :
    calculate_next_run "@every 1440000000000m" 0 = Except.error PyErr.overflowError := by decide

/-- C5 (amended): for every nonempty decimal digit string, every unit among
m, h and d, and every reference time, when the resulting duration stays
within the timedelta day bound, nextRun of the @every expression is
exactly the reference time plus that many minutes, hours or days, with the
seconds and sub-second components of the reference preserved (pure
addition, no zeroing), the @every branch running before the shortcut and
standard-cron handling; when the duration exceeds the bound, nextRun
raises OverflowError for every reference time. -/
theorem c5_every (ds : String) (u : EveryUnit) (T : DateTime)
    (h1 : ds.data ≠ []) (h2 : ds.data.all Char.isDigit = true) :
    (((digitsToNat ds.data : Int) * unitUs u).ediv usPerDay ≤ 999999999 →
      calculate_next_run ("@every " ++ ds ++ String.mk [unitChar u]) T =
        Except.ok (T + (digitsToNat ds.data : Int) * unitUs u)) ∧
    (999999999 < ((digitsToNat ds.data : Int) * unitUs u).ediv usPerDay →
      calculate_next_run ("@every " ++ ds ++ String.mk [unitChar u]) T =
        Except.error PyErr.overflowError) := by
  have hdata : ("@every " ++ ds ++ String.mk [unitChar u]).data
      = '@' :: 'e' :: 'v' :: 'e' :: 'r' :: 'y' :: ' ' :: (ds.data ++ unitChar u :: []) := by
    rw [data_append, data_append]
    rfl
  have hpre : pyStartsWith ("@every " ++ ds ++ String.mk [unitChar u]) "@every" = true := by
    unfold pyStartsWith
    rw [hdata]
    rfl
  have hnn : 0 ≤ ((digitsToNat ds.data : Int) * unitUs u).ediv usPerDay := by
    apply Int.ediv_nonneg
    · apply mul_nonneg
      · exact Int.natCast_nonneg _
      · cases u <;> norm_num [unitUs, usPerMin, usPerHour, usPerDay]
    · norm_num [usPerDay]
  constructor
  · intro h3
    unfold calculate_next_run
    rw [hpre, if_pos rfl, hdata, reSearchEvery_at h1 h2 u []]
    show (match timedelta ((digitsToNat ds.data : Int) * unitUs u) with
      | Except.ok d => Except.ok (T + d)
      | Except.error e => Except.error e) = _
    rw [show timedelta ((digitsToNat ds.data : Int) * unitUs u)
        = Except.ok ((digitsToNat ds.data : Int) * unitUs u) from by
      unfold timedelta
      rw [if_pos ⟨by linarith, h3⟩]]
  · intro h3
    unfold calculate_next_run
    rw [hpre, if_pos rfl, hdata, reSearchEvery_at h1 h2 u []]
    show (match timedelta ((digitsToNat ds.data : Int) * unitUs u) with
      | Except.ok d => Except.ok (T + d)
      | Except.error e => Except.error e) = _
    rw [show timedelta ((digitsToNat ds.data : Int) * unitUs u)
        = Except.error PyErr.overflowError from by
      unfold timedelta
      rw [if_neg (fun hc => absurd hc.2 (not_le.mpr h3))]]

/-- Witness for C5 at a concrete in-bound input. -/
theorem c5_every_witness :
    calculate_next_run ("@every " ++ "30" ++ String.mk [unitChar EveryUnit.m]) 5 =
      Except.ok (5 + (digitsToNat ("30" : String).data : Int) * unitUs EveryUnit.m) :=
  (c5_every "30" EveryUnit.m 5 (by decide) (by decide)).1 (by decide)

/-- C10: with a zero count the @every branch of nextRun is the identity on
the reference time for all three units, so the returned next run is not
strictly after the reference and is never rolled forward. -/
theorem c10_every_zero (T : DateTime) :
    calculate_next_run "@every 0m" T = Except.ok T ∧
    calculate_next_run "@every 0h" T = Except.ok T ∧
    calculate_next_run "@every 0d" T = Except.ok T := by
  refine ⟨?_, ?_, ?_⟩
  · unfold calculate_next_run
    rw [show pyStartsWith "@every 0m" "@every" = true from rfl, if_pos rfl,
      show reSearchEvery ("@every 0m" : String).data = some (0, EveryUnit.m) from rfl]
    simp
    rw [show timedelta 0 = Except.ok 0 from by decide]
    simp
  · unfold calculate_next_run
    rw [show pyStartsWith "@every 0h" "@every" = true from rfl, if_pos rfl,
      show reSearchEvery ("@every 0h" : String).data = some (0, EveryUnit.h) from rfl]
    simp
    rw [show timedelta 0 = Except.ok 0 from by decide]
    simp
  · unfold calculate_next_run
    rw [show pyStartsWith "@every 0d" "@every" = true from rfl, if_pos rfl,
      show reSearchEvery ("@every 0d" : String).data = some (0, EveryUnit.d) from rfl]
    simp
    rw [show timedelta 0 = Except.ok 0 from by decide]
    simp

lemma calc_no_every {s : String} (T : DateTime) (hpre : pyStartsWith s "@every" = false) :
    calculate_next_run s T = calc_standard ((shortcutLookup s).getD s) T := by
  unfold calculate_next_run
  rw [hpre, if_neg Bool.false_ne_true]

lemma calc_no_match {s : String} (T : DateTime) (hev : reSearchEvery s.data = none) :
    calculate_next_run s T = calc_standard ((shortcutLookup s).getD s) T := by
  unfold calculate_next_run
  cases hb : pyStartsWith s "@every"
  · rw [if_neg Bool.false_ne_true]
  · rw [if_pos rfl, hev]

lemma calc_standard_fallback (s : String) (T : DateTime)
    (hshape : (pySplit s).length ≠ 5 ∨
      ∃ minute hour day month weekday, pySplit s = [minute, hour, day, month, weekday] ∧
        pyStartsWith minute "*/" = false ∧
        ¬(pyStartsWith hour "*/" = true ∧ pyIsdigit minute = true) ∧
        ¬(pyIsdigit minute = true ∧ pyIsdigit hour = true)) :
    calc_standard s T = Except.ok (T + usPerHour) := by
  unfold calc_standard
  rcases hshape with h5 | ⟨minute, hour, day, month, weekday, hsp, hm, hh, hmh⟩
  · rcases hl : pySplit s with _ | ⟨a, _ | ⟨b, _ | ⟨c, _ | ⟨d, _ | ⟨e, _ | ⟨f, rest⟩⟩⟩⟩⟩⟩ <;>
      first
        | rfl
        | (exfalso; rw [hl] at h5; simp at h5)
  · simp only [hsp]
    rw [if_neg (by simp [hm]), if_neg hh, if_neg hmh]

lemma calc_standard_specific (s minute hour day month weekday : String) (T : DateTime)
    (hsplit : pySplit s = [minute, hour, day, month, weekday])
    (hmd : pyIsdigit minute = true) (hhd : pyIsdigit hour = true)
    (hm59 : digitsToNat minute.data ≤ 59) (hh23 : digitsToNat hour.data ≤ 23) :
    calc_standard s T =
      Except.ok
        (if dayStart T + (digitsToNat hour.data : Int) * usPerHour
              + (digitsToNat minute.data : Int) * usPerMin ≤ T
         then dayStart T + (digitsToNat hour.data : Int) * usPerHour
              + (digitsToNat minute.data : Int) * usPerMin + usPerDay
         else dayStart T + (digitsToNat hour.data : Int) * usPerHour
              + (digitsToNat minute.data : Int) * usPerMin) := by
  have hm' : pyStartsWith minute "*/" = false := startsWith_step_false_of_isdigit hmd
  have hh' : pyStartsWith hour "*/" = false := startsWith_step_false_of_isdigit hhd
  unfold calc_standard
  simp only [hsplit, pyInt_of_isdigit hmd, pyInt_of_isdigit hhd]
  rw [if_neg (by simp [hm']), if_neg (by intro hc; rw [hh'] at hc; exact Bool.false_ne_true hc.1),
    if_pos ⟨hmd, hhd⟩]
  rw [show pyReplaceHM T ((digitsToNat hour.data : Int)) ((digitsToNat minute.data : Int))
      = Except.ok (dayStart T + (digitsToNat hour.data : Int) * usPerHour
          + (digitsToNat minute.data : Int) * usPerMin) from by
    unfold pyReplaceHM
    rw [if_pos ⟨by positivity, by exact_mod_cast hh23, by positivity, by exact_mod_cast hm59⟩]]

/-- C1: the spec promises that describe and nextRun never raise for any
input, but the code raises ValueError when a step suffix is not an integer
literal and when a concrete minute or hour field is outside the range the
datetime replace call accepts; these closed evaluations exhibit the raises
on the inputs named by the claim. -/
theorem c1_raise_points :
    parse_schedule "*/x * * * *" = Except.error PyErr.valueError ∧
    parse_schedule "*/ * * * *" = Except.error PyErr.valueError ∧
    calculate_next_run "*/x * * * *" 0 = Except.error PyErr.valueError ∧
    calculate_next_run "99 99 * * *" 0 = Except.error PyErr.valueError := by
  refine ⟨by decide, by decide, by decide, by decide⟩

/-- C4: describe on each of the seven shortcut spellings equals describe on
the mapped canonical 5-field cron string, because the shortcut is
substituted once and then described purely as standard cron. -/
theorem c4_shortcut_equiv :
    parse_schedule "@yearly" = parse_schedule "0 0 1 1 *" ∧
    parse_schedule "@annually" = parse_schedule "0 0 1 1 *" ∧
    parse_schedule "@monthly" = parse_schedule "0 0 1 * *" ∧
    parse_schedule "@weekly" = parse_schedule "0 0 * * 0" ∧
    parse_schedule "@daily" = parse_schedule "0 0 * * *" ∧
    parse_schedule "@midnight" = parse_schedule "0 0 * * *" ∧
    parse_schedule "@hourly" = parse_schedule "0 * * * *" := by
  refine ⟨by decide, by decide, by decide, by decide, by decide, by decide, by decide⟩

/-- C2: for a 5-field schedule that does not start with the at-every literal,
is not a shortcut key, and whose minute and hour fields are digit strings
denoting a valid minute and hour, nextRun is the instant on the same
calendar day as the reference at that hour and minute with seconds and
microseconds zeroed when that instant is strictly after the reference, and
that instant plus one day otherwise. -/
theorem c2_specific_time (s minute hour day month weekday : String) (T : DateTime)
    (hpre : pyStartsWith s "@every" = false)
    (hsc : shortcutLookup s = none)
    (hsplit : pySplit s = [minute, hour, day, month, weekday])
    (hmd : pyIsdigit minute = true) (hhd : pyIsdigit hour = true)
    (hm59 : digitsToNat minute.data ≤ 59) (hh23 : digitsToNat hour.data ≤ 23) :
    calculate_next_run s T =
      Except.ok
        (if T < dayStart T + (digitsToNat hour.data : Int) * usPerHour
              + (digitsToNat minute.data : Int) * usPerMin
         then dayStart T + (digitsToNat hour.data : Int) * usPerHour
              + (digitsToNat minute.data : Int) * usPerMin
         else dayStart T + (digitsToNat hour.data : Int) * usPerHour
              + (digitsToNat minute.data : Int) * usPerMin + usPerDay) := by
  rw [calc_no_every T hpre, hsc, Option.getD_none,
    calc_standard_specific s minute hour day month weekday T hsplit hmd hhd hm59 hh23]
  rcases le_or_lt (dayStart T + (digitsToNat hour.data : Int) * usPerHour
      + (digitsToNat minute.data : Int) * usPerMin) T with h | h
  · rw [if_pos h, if_neg (not_lt.mpr h)]
  · rw [if_neg (not_le.mpr h), if_pos h]

/-- Witness for C2: reference 08:00 on day zero with schedule 0 9 returns
same-day 09:00. -/
theorem c2_specific_time_witness :
    calculate_next_run "0 9 * * *" (8 * usPerHour) =
      Except.ok
        (if 8 * usPerHour < dayStart (8 * usPerHour)
              + (digitsToNat ("9" : String).data : Int) * usPerHour
              + (digitsToNat ("0" : String).data : Int) * usPerMin
         then dayStart (8 * usPerHour) + (digitsToNat ("9" : String).data : Int) * usPerHour
              + (digitsToNat ("0" : String).data : Int) * usPerMin
         else dayStart (8 * usPerHour) + (digitsToNat ("9" : String).data : Int) * usPerHour
              + (digitsToNat ("0" : String).data : Int) * usPerMin + usPerDay) :=
  c2_specific_time "0 9 * * *" "0" "9" "*" "*" "*" (8 * usPerHour)
    (by decide) (by decide) (by decide) (by decide) (by decide) (by decide) (by decide)

/-- C7: when no @every token is present anywhere in the string, the string
is not a shortcut key, and the string either does not split into exactly
five fields or splits into five fields matching none of the three modeled
shapes, nextRun returns exactly the reference time plus one hour. -/
theorem c7_generic_fallback (s : String) (T : DateTime)
    (hev : reSearchEvery s.data = none)
    (hsc : shortcutLookup s = none)
    (hshape : (pySplit s).length ≠ 5 ∨
      ∃ minute hour day month weekday, pySplit s = [minute, hour, day, month, weekday] ∧
        pyStartsWith minute "*/" = false ∧
        ¬(pyStartsWith hour "*/" = true ∧ pyIsdigit minute = true) ∧
        ¬(pyIsdigit minute = true ∧ pyIsdigit hour = true)) :
    calculate_next_run s T = Except.ok (T + usPerHour) := by
  rw [calc_no_match T hev, hsc, Option.getD_none]
  exact calc_standard_fallback s T hshape

/-- Witness for C7 at the string at-random, which has no @every token, is
not a shortcut, and has one field. -/
theorem c7_generic_fallback_witness :
    calculate_next_run "@random" 0 = Except.ok (0 + usPerHour) :=
  c7_generic_fallback "@random" 0 (by decide) (by decide) (Or.inl (by decide))

/-- C8: nextRun does not strip surrounding whitespace while describe does:
with a leading space the daily shortcut falls to the generic one-hour
fallback while the trimmed spelling returns the next midnight, so nextRun
distinguishes a string from its trim even though describe does not. -/
theorem c8_nextRun_not_trimmed (T : DateTime) :
    calculate_next_run " @daily" T = Except.ok (T + usPerHour) ∧
    calculate_next_run "@daily" T = Except.ok (dayStart T + usPerDay) ∧
    parse_schedule " @daily" = parse_schedule "@daily" ∧
    calculate_next_run " @daily" 0 ≠ calculate_next_run (pyStrip " @daily") 0 := by
  refine ⟨?_, ?_, by decide, by decide⟩
  · rw [calc_no_every T (by decide), show shortcutLookup " @daily" = none from rfl,
      Option.getD_none]
    exact calc_standard_fallback " @daily" T (Or.inl (by decide))
  · rw [calc_no_every T (by decide), show shortcutLookup "@daily" = some "0 0 * * *" from rfl,
      Option.getD_some]
    rw [calc_standard_specific "0 0 * * *" "0" "0" "*" "*" "*" T (by decide) (by decide)
      (by decide) (by decide) (by decide)]
    rw [show (digitsToNat ("0" : String).data : Int) = 0 from rfl]
    simp [dayStart_le T]

/-- Witness for C8 at reference time zero. -/
theorem c8_nextRun_not_trimmed_witness :
    calculate_next_run " @daily" 0 = Except.ok (0 + usPerHour) ∧
    calculate_next_run "@daily" 0 = Except.ok (dayStart 0 + usPerDay) ∧
    parse_schedule " @daily" = parse_schedule "@daily" ∧
    calculate_next_run " @daily" 0 ≠ calculate_next_run (pyStrip " @daily") 0 :=
  c8_nextRun_not_trimmed 0

/-- C9: a 5-field schedule whose minute field is a literal other than star
and zero and whose hour field is a step pattern, with day, month and
weekday all star, is described by the daily rule with the step pattern
rendered verbatim in the hour position, because the step-hour rule demands
minute zero and the daily rule only demands the fields differ from star. -/
theorem c9_daily_with_step_hour (s minute hour : String)
    (hsplit : pySplit s = [minute, hour, "*", "*", "*"])
    (hm1 : minute ≠ "*") (hm0 : minute ≠ "0") (hmstep : pyStartsWith minute "*/" = false)
    (hh : pyStartsWith hour "*/" = true) :
    describe_standard_cron s = Except.ok ("Daily at " ++ hour ++ ":" ++ zfill 2 minute) := by
  have hhne : hour ≠ "*" := ne_star_of_startsWith_step hh
  have hlen : 2 ≤ hour.data.length := by
    obtain ⟨rest, hd⟩ := data_of_startsWith_step hh
    rw [hd]
    simp
  unfold describe_standard_cron
  simp only [hsplit]
  rw [if_neg (by intro hc; exact hm1 hc.1)]
  rw [if_neg (by simp [hmstep])]
  rw [if_neg (by intro hc; exact hm0 hc.2)]
  rw [if_neg (by intro hc; exact absurd hc.1 (by decide))]
  rw [if_pos ⟨hm1, hhne, trivial, trivial, trivial⟩]
  rw [zfill_of_len hlen]

/-- Witness for C9 at the concrete schedule from the claim. -/
theorem c9_daily_with_step_hour_witness :
    describe_standard_cron "30 */2 * * *" = Except.ok "Daily at */2:30" := by
  have h := c9_daily_with_step_hour "30 */2 * * *" "30" "*/2" (by decide) (by decide)
    (by decide) (by decide) (by decide)
  rw [h]
  decide

/-- C6: for a trimmed non-shortcut string starting with the at-every
literal, describe returns the Every-N-unit sentence with the unit word
pluralized exactly when the captured decimal value differs from one when
the pattern finds a token, and the invalid-at-every sentence when no token
occurs anywhere in the string. -/
theorem c6_describe_every (s : String)
    (ht : pyStrip s = s) (hev : pyStartsWith s "@every" = true)
    (hsc : shortcutLookup s = none) :
    (∀ n u, reSearchEvery s.data = some (n, u) →
      parse_schedule s =
        Except.ok ("Every " ++ toString n ++ " " ++ unitWord u ++ (if n ≠ 1 then "s" else ""))) ∧
    (reSearchEvery s.data = none → parse_schedule s = Except.ok "Invalid @every syntax") := by
  have hps : parse_schedule s = Except.ok (parse_every s) := by
    simp only [parse_schedule]
    rw [ht, hsc, hev]
    simp
  constructor
  · intro n u h
    rw [hps]
    unfold parse_every
    simp only [h]
    by_cases hn : n = 1
    · subst hn
      simp [pluralZ]
    · unfold pluralZ
      rw [if_pos (by exact_mod_cast hn), if_pos hn]
  · intro h
    rw [hps]
    unfold parse_every
    rw [h]

/-- Witness for C6: a zero-padded count of one takes the singular form. -/
theorem c6_describe_every_witness :
    parse_schedule "@every 01m" = Except.ok "Every 1 minute" := by
  have h := (c6_describe_every "@every 01m" (by decide) (by decide) (by decide)).1 1
    EveryUnit.m (by decide)
  rw [h]
  decide

/-- C3 counterexample: the claim says a 5-field string whose minute field
starts with a step prefix is described by an Every-N-minutes sentence, but
on a non-numeric step suffix describe raises ValueError instead of
returning any sentence. -/
theorem c3_counterexample :
    parse_schedule "*/x * * * *" = Except.error PyErr.valueError := by decide

/-- C3 (amended): for a trimmed string that is not a shortcut key and does
not start with at-every or at-random, describe returns the invalid-syntax
sentence when the field count differs from five, and otherwise applies the
first-match-wins cascade of the claim, except that in the three step rules
the int conversion of the step suffix raises ValueError (surfacing as an
error, not a sentence) when the suffix is not an integer literal. -/
theorem c3_cascade (s : String)
    (ht : pyStrip s = s) (hsc : shortcutLookup s = none)
    (he : pyStartsWith s "@every" = false) (hr : pyStartsWith s "@random" = false) :
    parse_schedule s =
      match pySplit s with
      | [minute, hour, day, month, weekday] =>
        if minute = "*" ∧ hour = "*" then Except.ok "Every minute"
        else if pyStartsWith minute "*/" then
          match pyInt? (pyDrop minute 2) with
          | some n => Except.ok ("Every " ++ pyDrop minute 2 ++ " minute" ++ pluralZ n)
          | none => Except.error PyErr.valueError
        else if pyStartsWith hour "*/" ∧ minute = "0" then
          match pyInt? (pyDrop hour 2) with
          | some n => Except.ok ("Every " ++ pyDrop hour 2 ++ " hour" ++ pluralZ n)
          | none => Except.error PyErr.valueError
        else if pyStartsWith day "*/" ∧ minute = "0" ∧ hour = "0" then
          match pyInt? (pyDrop day 2) with
          | some n => Except.ok ("Every " ++ pyDrop day 2 ++ " day" ++ pluralZ n)
          | none => Except.error PyErr.valueError
        else if minute ≠ "*" ∧ hour ≠ "*" ∧ day = "*" ∧ month = "*" ∧ weekday = "*" then
          Except.ok ("Daily at " ++ zfill 2 hour ++ ":" ++ zfill 2 minute)
        else if minute ≠ "*" ∧ hour ≠ "*" ∧ day ≠ "*" ∧ month = "*" ∧ weekday = "*" then
          Except.ok ("Monthly on day " ++ day ++ " at " ++ zfill 2 hour ++ ":" ++ zfill 2 minute)
        else Except.ok ("Cron: " ++ s)
      | _ => Except.ok ("Invalid cron syntax: " ++ s) := by
  simp only [parse_schedule]
  rw [ht, hsc, he, hr]
  rfl

/-- Witness for C3 at the fallback example of the spec. -/
theorem c3_cascade_witness :
    parse_schedule "1 2 3 4 5" = Except.ok "Cron: 1 2 3 4 5" := by
  have h := c3_cascade "1 2 3 4 5" (by decide) (by decide) (by decide) (by decide)
  rw [h]
  decide

/-- Witness for C10 at reference time zero. -/
theorem c10_every_zero_witness :
    calculate_next_run "@every 0m" 0 = Except.ok 0 ∧
    calculate_next_run "@every 0h" 0 = Except.ok 0 ∧
    calculate_next_run "@every 0d" 0 = Except.ok 0 :=
  c10_every_zero 0
